import Mathlib

/-!
Verification of the sse-events client (`src/EventSource.js`): a shallow
embedding of its backoff policy, incremental stream-frame decoder, and
connection state machine, with theorems checking the claims of the
specification against that embedding.

Response text is modelled as `List Char`; machine numbers as `ℤ`/`ℕ`
(the source only performs small-integer arithmetic, so no overflow
modelling is needed); `Math.random()` outcomes are passed explicitly as a
rational `q` with `0 ≤ q < 1`.
-/

namespace SseEvents

/-- Subset of the character class matched by the regex `reTrim` of the
source (`\s` plus U+00A0): ASCII whitespace and the no-break space. -/
def isJsSpace (c : Char) : Bool :=
  c = ' ' || c = '\t' || c = '\n' || c = '\r' || c = '\u000B' || c = '\u000C' || c = ' '

/-- Model of `line.replace(reTrim, ...)` with an empty replacement:
strip leading and trailing whitespace. -/
def jsTrim (l : List Char) : List Char :=
  ((l.dropWhile isJsSpace).reverse.dropWhile isJsSpace).reverse

/-- Test that the first argument is an initial segment of the second
(JS `line.indexOf(pat) === 0`). -/
def startsWithC : List Char → List Char → Bool
  | [], _ => true
  | _ :: _, [] => false
  | p :: ps, c :: cs => p = c && startsWithC ps cs

/-- Model of `line.replace(/FIELD:?\s*/, '')` for a `line` that starts
with `field`: the regex match is anchored at position 0 and greedily
consumes the field name, an optional colon, and any following
whitespace. -/
def stripField (field line : List Char) : List Char :=
  let r := line.drop field.length
  let r2 := match r with
    | ':' :: t => t
    | _ => r
  r2.dropWhile isJsSpace

/-- Decimal value of a digit list (used by the `parseInt` model). -/
def digitsToNat (ds : List Char) : ℕ :=
  ds.foldl (fun acc c => acc * 10 + (c.toNat - 48)) 0

/-- Model of JS `parseInt` restricted to decimal inputs (the hexadecimal
`0x` form is not modelled): skip leading whitespace, read an optional
sign and the longest digit run, ignore trailing text; `none` models
`NaN`. -/
def parseIntJs (l : List Char) : Option ℤ :=
  let l1 := l.dropWhile isJsSpace
  let sign : ℤ := match l1 with
    | '-' :: _ => -1
    | _ => 1
  let l2 := match l1 with
    | '-' :: t => t
    | '+' :: t => t
    | _ => l1
  let ds := l2.takeWhile Char.isDigit
  if ds = [] then none else some (sign * (digitsToNat ds : ℤ))

/-- Model of `responseText.split` at newlines on character lists: JS
`split` keeps empty
segments, so the result is always nonempty and a trailing newline yields
a trailing empty segment. -/
def splitNl : List Char → List (List Char)
  | [] => [[]]
  | c :: rest =>
    let r := splitNl rest
    if c = '\n' then [] :: r else (c :: r.headI) :: r.tail

/-- One complete wire frame as produced by the decode loop, before the
`_emitMessage` JSON step: the `event:` name (default `message`), the
`data` lines joined with newlines, and the `lastEventId` current at emit
time. -/
structure RawFrame where
  eventType : List Char
  data : List Char
  lastEventId : Option (List Char)
deriving DecidableEq, Repr

/-- Decode-loop state. `data` and `eventType` are the per-callback local
variables of `onreadystatechange`; `lastEventId` is instance state
(`self.lastEventId`); `interval` models the accidentally-global
`interval` variable written by the `retry` branch. -/
structure DecSt where
  data : List (List Char)
  eventType : Option (List Char)
  lastEventId : Option (List Char)
  interval : Option ℤ
deriving Repr

/-- Decode-loop body for one split part, mirroring the `if`/`else if`
chain over the trimmed line: `event`, `retry`, `data`, `id:`, `id`,
blank-line frame boundary, anything else ignored. -/
def lineStep (st : DecSt) (raw : List Char) : DecSt × Option RawFrame :=
  let line := jsTrim raw
  if startsWithC ("event".data) line then
    ({ st with eventType := some (stripField ("event".data) line) }, none)
  else if startsWithC ("retry".data) line then
    match parseIntJs (stripField ("retry".data) line) with
    | some n => ({ st with interval := some n }, none)
    | none => (st, none)
  else if startsWithC ("data".data) line then
    ({ st with data := st.data ++ [stripField ("data".data) line] }, none)
  else if startsWithC ("id:".data) line then
    ({ st with lastEventId := some (stripField ("id".data) line) }, none)
  else if startsWithC ("id".data) line then
    ({ st with lastEventId := none }, none)
  else if line = [] then
    if st.data = [] then (st, none)
    else ({ st with data := [], eventType := none },
          some { eventType := st.eventType.getD ("message".data),
                 data := List.intercalate ['\n'] st.data,
                 lastEventId := st.lastEventId })
  else (st, none)

/-- Run the decode loop over a list of split parts, collecting emitted
frames in order. -/
def decodeList (st : DecSt) : List (List Char) → DecSt × List RawFrame
  | [] => (st, [])
  | p :: ps =>
    let r := lineStep st p
    let rest := decodeList r.1 ps
    (rest.1, r.2.toList ++ rest.2)

/-- Fresh decode state at the start of one `onreadystatechange` callback:
`data`/`eventType` are new locals, `lastEventId` and the global
`interval` carry over. -/
def initSt (lid : Option (List Char)) (itv : Option ℤ) : DecSt :=
  { data := [], eventType := none, lastEventId := lid, interval := itv }

/-- One decode call of the frame decoder on the cumulative response text:
`responseText.substr(cache.length).split("\n")` fed to the loop. The new
cursor is the full `resp` (the source sets `cache = responseText`
unconditionally). -/
def decodeCall (resp cache : List Char) (lid : Option (List Char)) (itv : Option ℤ) :
    DecSt × List RawFrame :=
  decodeList (initSt lid itv) (splitNl (resp.drop cache.length))

/-- Frames obtained by decoding the full text in one call starting from
an empty cursor and empty persistent state. -/
def fullFrames (full : List Char) : List RawFrame :=
  (decodeCall full [] none none).2

/-- Decode `c1` first (empty cursor), then the full text with the cursor
advanced past `c1`, threading the persistent state; returns the final
state and the concatenated frames of the two calls. -/
def chunkRun (full c1 : List Char) (lid : Option (List Char)) (itv : Option ℤ) :
    DecSt × List RawFrame :=
  let r1 := decodeCall c1 [] lid itv
  let r2 := decodeCall full c1 r1.1.lastEventId r1.1.interval
  (r2.1, r1.2 ++ r2.2)

/-- Decoder state at a chunk boundary during the one-call run: the state
after processing every complete line of `c1` (the trailing empty
segment that `split` manufactures from a final newline excluded). -/
def boundarySt (c1 : List Char) (lid : Option (List Char)) (itv : Option ℤ) : DecSt :=
  (decodeList (initSt lid itv) ((splitNl c1).dropLast)).1

/-- JSON values, for the `JSON.parse` calls in `_emitMessage` and
`_emitError`. -/
inductive Json where
  | null
  | bool (b : Bool)
  | num (n : ℤ)
  | str (s : List Char)
  | arr (elems : List Json)
  | obj (fields : List (List Char × Json))
deriving Repr

/-- JSON insignificant whitespace. -/
def jsonWs (c : Char) : Bool :=
  c = ' ' || c = '\t' || c = '\n' || c = '\r'

/-- String body after an opening quote: content up to the closing quote
(escape sequences are outside the modelled subset and reject). -/
def takeStr : List Char → Option (List Char × List Char)
  | [] => none
  | c :: t =>
    if c = '"' then some ([], t)
    else if c = '\\' then none
    else match takeStr t with
      | some (s, r) => some (c :: s, r)
      | none => none

mutual

/-- Modelled from the spec ("best-effort JSON-decoded body",
"JSON-decoded" message data): recursive-descent parser for the platform
built-in `JSON.parse`, which is not part of the repository source.
Subset modelled: null/true/false, integer numbers, escape-free strings,
arrays and objects; `fuel` bounds recursion depth. -/
def parseVal : ℕ → List Char → Option (Json × List Char)
  | 0, _ => none
  | fuel + 1, l =>
    match l.dropWhile jsonWs with
    | 'n' :: 'u' :: 'l' :: 'l' :: t => some (.null, t)
    | 't' :: 'r' :: 'u' :: 'e' :: t => some (.bool true, t)
    | 'f' :: 'a' :: 'l' :: 's' :: 'e' :: t => some (.bool false, t)
    | '"' :: t =>
      match takeStr t with
      | some (s, r) => some (.str s, r)
      | none => none
    | '[' :: t =>
      match t.dropWhile jsonWs with
      | ']' :: r => some (.arr [], r)
      | t2 =>
        match parseElems fuel t2 with
        | some (xs, r) => some (.arr xs, r)
        | none => none
    | '{' :: t =>
      match t.dropWhile jsonWs with
      | '}' :: r => some (.obj [], r)
      | t2 =>
        match parseMembers fuel t2 with
        | some (ms, r) => some (.obj ms, r)
        | none => none
    | '-' :: t =>
      let ds := t.takeWhile Char.isDigit
      if ds = [] then none else some (.num (-(digitsToNat ds : ℤ)), t.drop ds.length)
    | c :: t =>
      if c.isDigit then
        let ds := (c :: t).takeWhile Char.isDigit
        some (.num (digitsToNat ds : ℤ), (c :: t).drop ds.length)
      else none
    | [] => none

/-- Array elements after the opening bracket: values separated by commas
and closed by a bracket. -/
def parseElems : ℕ → List Char → Option (List Json × List Char)
  | 0, _ => none
  | fuel + 1, l =>
    match parseVal fuel l with
    | some (v, r) =>
      match r.dropWhile jsonWs with
      | ',' :: r2 =>
        match parseElems fuel r2 with
        | some (xs, r3) => some (v :: xs, r3)
        | none => none
      | ']' :: r2 => some ([v], r2)
      | _ => none
    | none => none

/-- Object members after the opening brace: quoted key, colon, value,
separated by commas and closed by a brace. -/
def parseMembers : ℕ → List Char → Option (List (List Char × Json) × List Char)
  | 0, _ => none
  | fuel + 1, l =>
    match l.dropWhile jsonWs with
    | '"' :: t =>
      match takeStr t with
      | some (k, r) =>
        match r.dropWhile jsonWs with
        | ':' :: r2 =>
          match parseVal fuel r2 with
          | some (v, r3) =>
            match r3.dropWhile jsonWs with
            | ',' :: r4 =>
              match parseMembers fuel r4 with
              | some (ms, r5) => some ((k, v) :: ms, r5)
              | none => none
            | '}' :: r4 => some ([(k, v)], r4)
            | _ => none
          | none => none
        | _ => none
      | none => none
    | _ => none

end

/-- Model of `JSON.parse` on a whole string: one value with only whitespace
allowed after it; `none` models a thrown `SyntaxError`. -/
def jsonParse (l : List Char) : Option Json :=
  match parseVal (l.length + 2) l with
  | some (v, rest) => if rest.dropWhile jsonWs = [] then some v else none
  | none => none

/-- Payload of an emitted content event after `_emitMessage`: either the
JSON-decoded value or the raw string. -/
inductive MsgData where
  | json (j : Json)
  | raw (s : List Char)
deriving Repr

/-- Data handling of `_emitMessage`: a truthy (nonempty) string is
`JSON.parse`d; on failure the raw string is kept. -/
def decodeMsgData (d : List Char) : MsgData :=
  if d = [] then .raw d
  else match jsonParse d with
    | some j => .json j
    | none => .raw d

/-- The observable content of each decoded frame: event name, decoded
payload, `lastEventId` at emit time. -/
def decodeFrames (body : String) : List (List Char × MsgData × Option (List Char)) :=
  (decodeCall body.data [] none none).2.map
    (fun f => (f.eventType, decodeMsgData f.data, f.lastEventId))

/-- Model of `randomInterval(max, min)` given the `Math.random()` outcome `q`:
`Math.floor(q * (max + 1 - min) + min)`. -/
def randomInterval (q : ℚ) (hi lo : ℤ) : ℤ :=
  ⌊q * ((hi : ℚ) + 1 - (lo : ℚ)) + (lo : ℚ)⌋

/-- The `for` loop of `backoffInterval`: with `n` iterations remaining
and the pair `(prev, current)`, advance the Fibonacci-like pair, breaking
(after the update) once `delay + current * 100` exceeds `maxDelay`. -/
def backoffLoop (delay maxDelay : ℤ) : ℕ → ℕ → ℕ → ℕ
  | 0, _, current => current
  | n + 1, prev, current =>
    let next := prev + current
    if delay + (next : ℤ) * 100 > maxDelay then next
    else backoffLoop delay maxDelay n current next

/-- The multiplier `current` computed by `backoffInterval` for a given
attempt count: 1 for `attempt ≤ 1`, else the loop started from
`prev = 1, current = 2` with `attempt - 2` iterations available. -/
def backoffCurrent (attempt : ℕ) (delay maxDelay : ℤ) : ℕ :=
  if attempt > 1 then backoffLoop delay maxDelay (attempt - 2) 1 2 else 1

/-- Model of `backoffInterval(attempt, delay, maxDelay)` given the random outcome
`q`: `delay + randomInterval(current * 100)`. -/
def backoffInterval (q : ℚ) (attempt : ℕ) (delay maxDelay : ℤ) : ℤ :=
  delay + randomInterval q ((backoffCurrent attempt delay maxDelay : ℤ) * 100) 0

/-- Lifecycle and content events published through the emitter. -/
inductive Ev where
  | openEv
  | errorEv (status : ℤ)
  | closeEv (error : Bool)
  | stateEv (state : ℕ) (prev : Option ℕ)
  | timeoutEv
  | msg (eventType : List Char) (data : MsgData) (lastEventId : Option (List Char))

/-- Observable actions of one transition: event emissions, `setTimeout`
scheduling of a retry, `xhr.abort()`, and issuing a new transport
request (`xhr.send()`). -/
inductive Act where
  | emit (e : Ev)
  | schedule (delayMs : ℤ)
  | abort
  | request

/-- Client state. `readyState = none` models the `undefined` initial
state; `xhr` holds the ready state of the transport itself (`none` before any
request); `pollTimer` is the truthiness of `_pollTimer`; `cache` is the
decode cursor of the current attempt; `globalInterval` the accidental
global written by the `retry` branch. The `url`/`path`/`options`/`params`
pass-through configuration is external to the verified core and omitted. -/
structure ES where
  reconnectInterval : ℤ
  maxInterval : ℤ
  minInterval : ℤ
  maxAttempts : ℤ
  retryNetwork : Bool
  retryServer : Bool
  serverErrorCodes : List ℤ
  readyState : Option ℕ
  lastEventId : Option (List Char)
  pollTimer : Bool
  xhr : Option ℕ
  attempts : ℕ
  cache : List Char
  globalInterval : Option ℤ

/-- The `CONNECTING` state constant. -/
def CONNECTING : ℕ := 0

/-- The `OPEN` state constant. -/
def OPEN : ℕ := 1

/-- The `CLOSED` state constant. -/
def CLOSED : ℕ := 2

/-- Constructor options actually read by the verified core;
`none` models an omitted (`undefined`) option. -/
structure Opts where
  reconnectInterval : Option ℤ
  maxInterval : Option ℤ
  minInterval : Option ℤ
  maxAttempts : Option ℤ
  retryOnNetworkError : Option Bool
  retryOnServerError : Option Bool
  serverErrorCodes : Option (List ℤ)

/-- All constructor options omitted. -/
def noOpts : Opts :=
  { reconnectInterval := none, maxInterval := none, minInterval := none,
    maxAttempts := none, retryOnNetworkError := none, retryOnServerError := none,
    serverErrorCodes := none }

/-- JS `value || default` on a numeric option: `undefined` and `0` are
falsy. -/
def jsOrNum (v : Option ℤ) (d : ℤ) : ℤ :=
  match v with
  | none => d
  | some x => if x = 0 then d else x

/-- JS `value || default` on a boolean option: `undefined` and `false`
are falsy. -/
def jsOrBool (v : Option Bool) (d : Bool) : Bool :=
  v.getD false || d

/-- The constructor: configuration fields are filled with `option ||
default` exactly as in the source (in particular
`RETRY_ON_NETWORK_ERROR = retryOnNetworkError || true`), and the mutable
state starts as `readyState = undefined`, no timer, no transport,
`_attempts = 0`. -/
def mkES (o : Opts) : ES :=
  { reconnectInterval := jsOrNum o.reconnectInterval 1000,
    maxInterval := jsOrNum o.maxInterval 15000,
    minInterval := jsOrNum o.minInterval 1000,
    maxAttempts := jsOrNum o.maxAttempts (-1),
    retryNetwork := jsOrBool o.retryOnNetworkError true,
    retryServer := jsOrBool o.retryOnServerError false,
    serverErrorCodes := o.serverErrorCodes.getD [502, 503, 504],
    readyState := none,
    lastEventId := none,
    pollTimer := false,
    xhr := none,
    attempts := 0,
    cache := [],
    globalInterval := none }

/-- Model of `_setReadyState`: change `readyState` and emit a `state` event only
when the value actually changes. -/
def setReadyState (st : ℕ) (s : ES) : ES × List Act :=
  if s.readyState = some st then (s, [])
  else ({ s with readyState := some st }, [.emit (.stateEv st s.readyState)])

/-- Model of `_poll`: no-op when `CLOSED`; otherwise issue a fresh transport
request — a new `XMLHttpRequest` in ready state 1 (opened/sent) with a
fresh decode cursor (the closure variable `cache` starts empty). The URL
formatting, header wiring, and the `try`/`catch` around transport errors
are external-collaborator details not modelled. -/
def pollES (s : ES) : ES × List Act :=
  if s.readyState = some CLOSED then (s, [])
  else ({ s with xhr := some 1, cache := [] }, [.request])

/-- Model of `_pollAgain(interval)`: schedule a `_poll` and record the pending
timer handle. -/
def pollAgain (interval : ℤ) (s : ES) : ES × List Act :=
  ({ s with pollTimer := true }, [.schedule interval])

/-- Model of `_retry`: increment the attempt counter, then schedule via the
backoff policy using the `MIN_INTERVAL`/`MAX_INTERVAL` bounds. -/
def retryES (q : ℚ) (s : ES) : ES × List Act :=
  let s1 := { s with attempts := s.attempts + 1 }
  pollAgain (backoffInterval q s1.attempts s1.minInterval s1.maxInterval) s1

/-- The timer callback installed by `_pollAgain` simply calls `_poll`;
the fired timer handle is not cleared (`_pollTimer` keeps the stale
truthy handle). -/
def timerFire (s : ES) : ES × List Act :=
  pollES s

/-- The `xhr.readyState === 4 || xhr.readyState === 0` part of the
`open()` guard (`!xhr` when no request was ever made). -/
def xhrIdle : Option ℕ → Bool
  | none => true
  | some r => r = 4 || r = 0

/-- Model of `open()`: guarded by an idle transport and no pending timer;
when the guard passes, transition to `CONNECTING` and `_poll`. -/
def openES (s : ES) : ES × List Act :=
  if xhrIdle s.xhr && !s.pollTimer then
    let p := setReadyState CONNECTING s
    let p2 := pollES p.1
    (p2.1, p.2 ++ p2.2)
  else (s, [])

/-- Model of `close(error)`: early-return when already `CLOSED`; otherwise
transition to `CLOSED`, clear the timer, abort the transport if one
exists (leaving it in the aborted ready state 0), reset `_attempts`, and
emit the `close` event carrying the error flag. -/
def closeES (error : Bool) (s : ES) : ES × List Act :=
  if s.readyState = some CLOSED then (s, [])
  else
    let p := setReadyState CLOSED s
    let abortActs := if p.1.xhr.isSome then [Act.abort] else []
    ({ p.1 with pollTimer := false, attempts := 0, xhr := p.1.xhr.map (fun _ => 0) },
      p.2 ++ abortActs ++ [.emit (.closeEv error)])

/-- Model of `xhr.onerror`: only status 0 (network failure) is handled — emit an
`error` event only on the first attempt of a burst, then either retry
(flag enabled and attempt ceiling not reached) or `close(true)`. The
errored transport is in ready state 4. -/
def onerror (status : ℤ) (q : ℚ) (s0 : ES) : ES × List Act :=
  let s := { s0 with xhr := some 4 }
  if status = 0 then
    let errActs := if s.attempts = 0 then [Act.emit (.errorEv 0)] else []
    if s.retryNetwork && (s.maxAttempts < 0 || (s.attempts : ℤ) < s.maxAttempts) then
      let p := setReadyState CONNECTING s
      let r := retryES q p.1
      (r.1, errActs ++ p.2 ++ r.2)
    else
      let c := closeES true s
      (c.1, errActs ++ c.2)
  else (s, [])

/-- Model of `xhr.onreadystatechange` with the transport in ready state
`xhrReady`, response status `status` and cumulative response text
`body`: on progress (3) or successful completion (4, 200) run the
open-transition, the frame decoder, and — on completion — the `timeout`
event plus the peer-close reschedule at
`randomInterval(RECONNECT_INTERVAL, 100)`; on failed completion emit the
error and either server-error-retry or `close(true)`. -/
def onRSC (xhrReady : ℕ) (status : ℤ) (body : List Char) (q : ℚ) (s0 : ES) :
    ES × List Act :=
  let s := { s0 with xhr := some xhrReady }
  if xhrReady = 3 || (xhrReady = 4 && status = 200) then
    let p :=
      if s.readyState = some CONNECTING && status = 200 then
        let p1 := setReadyState OPEN s
        ({ p1.1 with attempts := 0 }, p1.2 ++ [Act.emit .openEv])
      else (s, [])
    let d := decodeCall body p.1.cache p.1.lastEventId p.1.globalInterval
    let s2 := { p.1 with
                cache := body
                lastEventId := d.1.lastEventId
                globalInterval := d.1.interval }
    let msgActs := d.2.map
      (fun f => Act.emit (.msg f.eventType (decodeMsgData f.data) f.lastEventId))
    if xhrReady = 4 then
      let r := pollAgain (randomInterval q s2.reconnectInterval 100) s2
      (r.1, p.2 ++ msgActs ++ [.emit .timeoutEv] ++ r.2)
    else (s2, p.2 ++ msgActs)
  else if xhrReady = 4 then
    if status ≠ 0 then
      let errAct := [Act.emit (.errorEv status)]
      if s.retryServer && status ∈ s.serverErrorCodes &&
          (s.maxAttempts < 0 || (s.attempts : ℤ) < s.maxAttempts) then
        let p := setReadyState CONNECTING s
        let r := retryES q p.1
        (r.1, errAct ++ p.2 ++ r.2)
      else
        let c := closeES true s
        (c.1, errAct ++ c.2)
    else (s, [])
  else (s, [])

/-- Discriminator for scheduled-retry actions. -/
def isScheduleAct : Act → Bool
  | .schedule _ => true
  | _ => false

/-- Discriminator for emitted `close` events. -/
def isCloseAct : Act → Bool
  | .emit (.closeEv _) => true
  | _ => false

/-- Discriminator for emitted `error` events. -/
def isErrorAct : Act → Bool
  | .emit (.errorEv _) => true
  | _ => false

/-- Discriminator for issued transport requests. -/
def isRequestAct : Act → Bool
  | .request => true
  | _ => false

/-- Number of retries scheduled in a list of actions. -/
def countSchedule (acts : List Act) : ℕ :=
  (acts.filter isScheduleAct).length

/-- Constructor options with `retryOnNetworkError: false`, as in the
README usage example. -/
def noRetryCfg : Opts := { noOpts with retryOnNetworkError := some false }

/-- Constructor options with `retryOnNetworkError: true` and
`maxAttempts: 3`. -/
def burstCfg : Opts :=
  { noOpts with retryOnNetworkError := some true, maxAttempts := some 3 }

/-- First network failure of a burst: `open()` then a status-0
`onerror` (random outcome fixed at 0). -/
def burstFail1 : ES × List Act := onerror 0 0 (openES (mkES burstCfg)).1

/-- Second consecutive network failure: the retry timer fires and the
new request fails again. -/
def burstFail2 : ES × List Act := onerror 0 0 (timerFire burstFail1.1).1

/-- Third consecutive network failure. -/
def burstFail3 : ES × List Act := onerror 0 0 (timerFire burstFail2.1).1

/-- Fourth consecutive network failure. -/
def burstFail4 : ES × List Act := onerror 0 0 (timerFire burstFail3.1).1

end SseEvents


namespace SseEvents

/-- The split of any text has at least one segment. -/
theorem splitNl_ne_nil (l : List Char) : splitNl l ≠ [] := by
  cases l with
  | nil => simp [splitNl]
  | cons c rest =>
    simp only [splitNl]
    split <;> simp

/-- The split of a text ending in a newline has at least two segments. -/
theorem splitNl_two_le (X : List Char) : 2 ≤ (splitNl (X ++ ['\n'])).length := by
  induction X with
  | nil => simp [splitNl]
  | cons c X ih =>
    simp only [List.cons_append, splitNl]
    split
    · simpa using Nat.le_succ_of_le ih
    · cases hr : splitNl (X ++ ['\n']) with
      | nil => exact absurd hr (splitNl_ne_nil _)
      | cons h t =>
        rw [hr] at ih
        simpa using ih

/-- Splitting text that continues past a newline yields the complete
lines of the first part followed by the split of the remainder. -/
theorem splitNl_append_cons (X B : List Char) :
    splitNl (X ++ '\n' :: B) = (splitNl (X ++ ['\n'])).dropLast ++ splitNl B := by
  induction X with
  | nil => simp [splitNl]
  | cons c X ih =>
    by_cases hc : c = '\n'
    · subst hc
      simp only [List.cons_append, splitNl, if_pos, List.append_eq]
      rw [ih, List.dropLast_cons_of_ne_nil (splitNl_ne_nil _)]
      simp
    · simp only [List.cons_append, splitNl, if_neg hc, List.append_eq]
      rw [ih]
      have h2 := splitNl_two_le X
      cases hL : splitNl (X ++ ['\n']) with
      | nil => exact absurd hL (splitNl_ne_nil _)
      | cons h t =>
        cases t with
        | nil => rw [hL] at h2; simp at h2
        | cons h2h t2 =>
          simp [List.dropLast]

/-- The decode loop over concatenated line lists runs the first list and
continues from its final state, concatenating the emitted frames. -/
theorem decodeList_append (st : DecSt) (P Q : List (List Char)) :
    decodeList st (P ++ Q) =
      ((decodeList (decodeList st P).1 Q).1,
        (decodeList st P).2 ++ (decodeList (decodeList st P).1 Q).2) := by
  induction P generalizing st with
  | nil => simp [decodeList]
  | cons p ps ih =>
    simp only [List.cons_append, decodeList, List.append_eq]
    rw [ih]
    simp

/-- A blank line is a no-op for the decode loop when no data lines are
pending. -/
theorem lineStep_nil (st : DecSt) (h : st.data = []) : lineStep st [] = (st, none) := by
  simp [lineStep, jsTrim, startsWithC, h]

end SseEvents

namespace SseEvents

/-- C1 (amended): chunked decoding agrees with one-call decoding when
the split boundary lies at a line boundary (chunk 1 ends with a newline)
and the pending frame state of the one-call run at that boundary is
empty (no accumulated data lines, no event-type override) — for
instance any split at a frame boundary. Frames, their order, and the
final decoder state all coincide. -/
theorem chunk_amended (Ap B : List Char) (lid : Option (List Char)) (itv : Option ℤ)
    (h1 : (boundarySt (Ap ++ ['\n']) lid itv).data = [])
    (h2 : (boundarySt (Ap ++ ['\n']) lid itv).eventType = none) :
    chunkRun (Ap ++ ['\n'] ++ B) (Ap ++ ['\n']) lid itv =
      decodeCall (Ap ++ ['\n'] ++ B) [] lid itv := by
  set D := (splitNl (Ap ++ ['\n'])).dropLast with hD
  set bSt := boundarySt (Ap ++ ['\n']) lid itv with hbSt
  have hbSt1 : (decodeList (initSt lid itv) D).1 = bSt := rfl
  have hsplit0 : splitNl (Ap ++ ['\n']) = D ++ [[]] := by
    have h := splitNl_append_cons Ap []
    simpa [splitNl] using h
  have hstep : decodeList bSt [[]] = (bSt, []) := by
    simp [decodeList, lineStep_nil bSt h1]
  have hone : decodeList (initSt lid itv) (splitNl (Ap ++ ['\n'])) =
      (bSt, (decodeList (initSt lid itv) D).2) := by
    rw [hsplit0, decodeList_append, hbSt1, hstep]
    simp
  have hinit : initSt bSt.lastEventId bSt.interval = bSt := by
    rw [initSt, ← h1, ← h2]
  have hcall1 : decodeCall (Ap ++ ['\n']) [] lid itv =
      (bSt, (decodeList (initSt lid itv) D).2) := by
    rw [decodeCall]
    simpa using hone
  have hdropB : ((Ap ++ ['\n'] ++ B).drop (Ap ++ ['\n']).length) = B :=
    List.drop_left _ _
  have hcall2 : decodeCall (Ap ++ ['\n'] ++ B) (Ap ++ ['\n']) bSt.lastEventId bSt.interval =
      decodeList bSt (splitNl B) := by
    rw [decodeCall, hdropB, hinit]
  have hfullsplit : splitNl (Ap ++ ['\n'] ++ B) = D ++ splitNl B := by
    have : Ap ++ ['\n'] ++ B = Ap ++ '\n' :: B := by simp
    rw [this, splitNl_append_cons]
  have hfull : decodeCall (Ap ++ ['\n'] ++ B) [] lid itv =
      ((decodeList bSt (splitNl B)).1,
        (decodeList (initSt lid itv) D).2 ++ (decodeList bSt (splitNl B)).2) := by
    rw [decodeCall]
    simp only [List.length_nil, List.drop_zero]
    rw [hfullsplit, decodeList_append, hbSt1]
  rw [chunkRun, hcall1]
  rw [hcall2, hfull]

end SseEvents

namespace SseEvents

/-- C1 (counterexample): as stated the claim is false. Splitting
`data: hello\n\n` mid-line after `data` loses the frame entirely (the
cursor consumes the partial line, so it is never re-evaluated), and
splitting `data: a\ndata: b\n\n` at the line boundary inside the frame
turns one two-line frame into two one-line frames. -/
theorem chunk_cex :
    (chunkRun ("data: hello\n\n".data) ("data".data) none none).2 = [] ∧
    fullFrames ("data: hello\n\n".data) =
      [{ eventType := "message".data, data := "hello".data, lastEventId := none }] ∧
    (chunkRun ("data: hello\n\n".data) ("data".data) none none).2 ≠
      fullFrames ("data: hello\n\n".data) ∧
    (chunkRun ("data: a\ndata: b\n\n".data) ("data: a\n".data) none none).2 ≠
      fullFrames ("data: a\ndata: b\n\n".data) := by
  refine ⟨rfl, rfl, ?_, ?_⟩ <;> decide

/-- C1 (witness): concrete instance of the amended chunking theorem at
a frame-boundary split of two one-frame bodies. -/
theorem chunk_amended_witness :
    ((boundarySt ("data: hello\n".data ++ ['\n']) none none).data = [] ∧
     (boundarySt ("data: hello\n".data ++ ['\n']) none none).eventType = none) ∧
    chunkRun ("data: hello\n".data ++ ['\n'] ++ ("data: x\n\n".data))
        ("data: hello\n".data ++ ['\n']) none none =
      decodeCall ("data: hello\n".data ++ ['\n'] ++ ("data: x\n\n".data)) [] none none :=
  ⟨⟨by decide, by decide⟩, chunk_amended _ _ _ _ (by decide) (by decide)⟩

/-- C7: from any state other than CLOSED, `close(error)` transitions to
CLOSED, clears the retry timer, resets the attempt counter, aborts the
transport when one exists, and publishes exactly one `close` event
carrying the error flag; from CLOSED it changes nothing and publishes
nothing. -/
theorem close_spec (s : ES) (e : Bool) :
    (s.readyState ≠ some CLOSED →
      (closeES e s).1.readyState = some CLOSED ∧
      (closeES e s).1.pollTimer = false ∧
      (closeES e s).1.attempts = 0 ∧
      (s.xhr.isSome = true → Act.abort ∈ (closeES e s).2) ∧
      (closeES e s).2.filter isCloseAct = [Act.emit (Ev.closeEv e)]) ∧
    (s.readyState = some CLOSED → closeES e s = (s, [])) := by
  constructor
  · intro h
    cases hx : s.xhr <;>
      simp [closeES, setReadyState, h, hx, isCloseAct, List.filter]
  · intro h
    simp [closeES, h]

/-- C8: `open()` is a no-op (no transport request, no state change)
whenever the transport is already active (its ready state is neither 0
nor 4) or a retry timer is pending, and repeated `open()` calls are
idempotent. -/
theorem open_spec (s : ES) :
    ((xhrIdle s.xhr = false ∨ s.pollTimer = true) → openES s = (s, [])) ∧
    openES (openES s).1 = ((openES s).1, []) := by
  have hguard : ∀ t : ES, (xhrIdle t.xhr && !t.pollTimer) = false → openES t = (t, []) := by
    intro t ht
    simp [openES, ht]
  constructor
  · intro h
    apply hguard
    rcases h with h | h <;> simp [h]
  · by_cases hg : (xhrIdle s.xhr && !s.pollTimer) = true
    · rw [Bool.and_eq_true, Bool.not_eq_true'] at hg
      obtain ⟨hx, hp⟩ := hg
      apply hguard
      by_cases hr : s.readyState = some 0 <;>
        simp [openES, setReadyState, pollES, hr, hx, hp, CONNECTING, CLOSED] <;>
        simp [xhrIdle]
    · have h1 := hguard s (by simpa using hg)
      rw [h1]
      exact h1

/-- State-change emissions never contain an `error` event. -/
theorem setReadyState_no_error (st : ℕ) (s : ES) :
    ((setReadyState st s).2.any isErrorAct) = false := by
  simp [setReadyState]
  split <;> simp [isErrorAct]

/-- Retry scheduling never emits an `error` event. -/
theorem retryES_no_error (q : ℚ) (s : ES) :
    ((retryES q s).2.any isErrorAct) = false := by
  simp [retryES, pollAgain, isErrorAct]

/-- The `close` transition never emits an `error` event. -/
theorem closeES_no_error (e : Bool) (s : ES) :
    ((closeES e s).2.any isErrorAct) = false := by
  rw [closeES]
  split
  · simp
  · cases hx : (setReadyState CLOSED s).1.xhr <;>
      simp [setReadyState, isErrorAct, hx] <;> split <;> simp [isErrorAct]

/-- C9: a status-0 network failure publishes an `error` event exactly
when the attempt counter is 0, i.e. only on the first attempt of a
retry burst. -/
theorem onerror_first_only (s : ES) (q : ℚ) :
    ((onerror 0 q s).2.any isErrorAct) = true ↔ s.attempts = 0 := by
  simp only [onerror, if_pos rfl]
  by_cases ha : s.attempts = 0
  all_goals
    simp only [ha, if_true, if_false, reduceIte]
  all_goals
    split <;>
      simp [List.any_append, setReadyState_no_error, retryES_no_error, closeES_no_error,
        isErrorAct, ha]

end SseEvents

namespace SseEvents

/-- One more loop iteration never decreases the multiplier. -/
theorem backoffLoop_le_succ (d M : ℤ) :
    ∀ (n p c : ℕ), backoffLoop d M n p c ≤ backoffLoop d M (n + 1) p c := by
  intro n
  induction n with
  | zero =>
    intro p c
    simp only [backoffLoop]
    split <;> exact Nat.le_add_left c p
  | succ n ih =>
    intro p c
    simp only [backoffLoop]
    split
    · exact Nat.le_refl _
    · exact ih c (p + c)

/-- Once the returned multiplier exceeds the bound, a further iteration
returns the same value (the break fires at the same step). -/
theorem backoffLoop_stable (d M : ℤ) :
    ∀ (n p c : ℕ), 1 ≤ n → d + (backoffLoop d M n p c : ℤ) * 100 > M →
      backoffLoop d M (n + 1) p c = backoffLoop d M n p c := by
  intro n
  induction n with
  | zero => intro p c h; omega
  | succ n ih =>
    intro p c _ hcond
    by_cases hc : d + ((p + c : ℕ) : ℤ) * 100 > M
    · conv_lhs => rw [backoffLoop]
      conv_rhs => rw [backoffLoop]
      rw [if_pos hc, if_pos hc]
    · cases n with
      | zero =>
        exfalso
        apply hc
        have : backoffLoop d M 1 p c = p + c := by
          simp only [backoffLoop]
          split <;> rfl
        rw [this] at hcond
        exact hcond
      | succ m =>
        have hLHS : backoffLoop d M (m + 1 + 1 + 1) p c = backoffLoop d M (m + 1 + 1) c (p + c) := by
          conv_lhs => rw [backoffLoop]
          rw [if_neg hc]
        have hRHS : backoffLoop d M (m + 1 + 1) p c = backoffLoop d M (m + 1) c (p + c) := by
          conv_lhs => rw [backoffLoop]
          rw [if_neg hc]
        rw [hLHS, hRHS]
        apply ih
        · omega
        · rw [hRHS] at hcond
          exact hcond

/-- The backoff multiplier is non-decreasing in the attempt count. -/
theorem backoffCurrent_mono (d M : ℤ) (a : ℕ) :
    backoffCurrent a d M ≤ backoffCurrent (a + 1) d M := by
  match a with
  | 0 => simp [backoffCurrent, backoffLoop]
  | 1 => simp [backoffCurrent, backoffLoop]
  | n + 2 =>
    simp only [backoffCurrent, if_pos (by omega : n + 2 > 1), if_pos (by omega : n + 2 + 1 > 1)]
    have h1 : n + 2 - 2 = n := by omega
    have h2 : n + 2 + 1 - 2 = n + 1 := by omega
    rw [h1, h2]
    exact backoffLoop_le_succ d M n 1 2

/-- From the third attempt on, once `delay + current * 100` exceeds
`maxDelay` the multiplier stabilizes. -/
theorem backoffCurrent_stable (d M : ℤ) (a : ℕ) (ha : 3 ≤ a)
    (h : d + (backoffCurrent a d M : ℤ) * 100 > M) :
    backoffCurrent (a + 1) d M = backoffCurrent a d M := by
  obtain ⟨k, rfl⟩ : ∃ k, a = k + 3 := ⟨a - 3, by omega⟩
  simp only [backoffCurrent, if_pos (by omega : k + 3 > 1), if_pos (by omega : k + 3 + 1 > 1)] at h ⊢
  have h1 : k + 3 - 2 = k + 1 := by omega
  have h2 : k + 3 + 1 - 2 = k + 1 + 1 := by omega
  rw [h1] at h
  rw [h1, h2]
  exact backoffLoop_stable d M (k + 1) 1 2 (by omega) h

/-- A jitter draw from a nonnegative range is nonnegative. -/
theorem randomInterval_lo_le (q : ℚ) (hq0 : 0 ≤ q) (hi : ℤ) (hhi : 0 ≤ hi) :
    0 ≤ randomInterval q hi 0 := by
  rw [randomInterval]
  apply Int.floor_nonneg.mpr
  push_cast
  have hc : (0 : ℚ) ≤ (hi : ℚ) := by exact_mod_cast hhi
  have h1 : (0 : ℚ) ≤ (hi : ℚ) + 1 - 0 := by linarith
  have h2 := mul_nonneg hq0 h1
  linarith

end SseEvents

namespace SseEvents

/-- C5 (counterexample): as stated the claim is false. With
`min = 1000`, `max = 1100` the multiplier at attempt 2 is 2 and
`1000 + 200 > 1100` already holds, yet attempt 3 still grows the
multiplier to 3 — the loop checks the bound only after advancing the
pair, so the ceiling takes one more growth step after first exceeding
`max`. -/
theorem backoff_cex :
    (1000 : ℤ) ≤ 1100 ∧
    1000 + (backoffCurrent 2 1000 1100 : ℤ) * 100 > 1100 ∧
    backoffCurrent 3 1000 1100 ≠ backoffCurrent 2 1000 1100 := by
  refine ⟨by norm_num, by decide, by decide⟩

/-- C5 (amended): for `0 ≤ q < 1`, `a ≥ 1`, `min ≤ max`, the computed
delay is at least `min`; the multiplier is non-decreasing in `a`; from
attempt 3 on it stabilizes once `min + current * 100 > max`; and for
`a ≤ 1` the delay is `min` plus a uniform integer draw from 0 to 100. -/
theorem backoff_spec (q : ℚ) (a : ℕ) (lo hi : ℤ)
    (hq0 : 0 ≤ q) (hq1 : q < 1) (ha : 1 ≤ a) (hlh : lo ≤ hi) :
    lo ≤ backoffInterval q a lo hi ∧
    backoffCurrent a lo hi ≤ backoffCurrent (a + 1) lo hi ∧
    (3 ≤ a → lo + (backoffCurrent a lo hi : ℤ) * 100 > hi →
      backoffCurrent (a + 1) lo hi = backoffCurrent a lo hi) ∧
    (a ≤ 1 → backoffInterval q a lo hi = lo + ⌊q * 101⌋ ∧
      0 ≤ ⌊q * 101⌋ ∧ ⌊q * 101⌋ ≤ 100) := by
  refine ⟨?_, backoffCurrent_mono lo hi a,
    fun h3 h => backoffCurrent_stable lo hi a h3 h, ?_⟩
  · have h0 : (0 : ℤ) ≤ (backoffCurrent a lo hi : ℤ) * 100 := by positivity
    have := randomInterval_lo_le q hq0 ((backoffCurrent a lo hi : ℤ) * 100) h0
    rw [backoffInterval]
    linarith
  · intro ha1
    have hcur : backoffCurrent a lo hi = 1 := by
      rw [backoffCurrent, if_neg (by omega)]
    have heq : backoffInterval q a lo hi = lo + ⌊q * 101⌋ := by
      rw [backoffInterval, hcur, randomInterval]
      norm_num
    have hnn : 0 ≤ ⌊q * 101⌋ := Int.floor_nonneg.mpr (by positivity)
    have hlt : ⌊q * 101⌋ < 101 := Int.floor_lt.mpr (by push_cast; nlinarith)
    exact ⟨heq, hnn, by omega⟩

/-- C5 (witness): concrete instance of the backoff theorem at
`q = 1/2`, attempt 1, bounds 1000 and 15000. -/
theorem backoff_spec_witness :
    (0 ≤ (1/2 : ℚ)) ∧ ((1/2 : ℚ) < 1) ∧ (1 ≤ 1) ∧ ((1000 : ℤ) ≤ 15000) ∧
    (1000 ≤ backoffInterval (1/2) 1 1000 15000 ∧
     backoffCurrent 1 1000 15000 ≤ backoffCurrent 2 1000 15000 ∧
     (3 ≤ 1 → 1000 + (backoffCurrent 1 1000 15000 : ℤ) * 100 > 15000 →
       backoffCurrent (1 + 1) 1000 15000 = backoffCurrent 1 1000 15000) ∧
     (1 ≤ 1 → backoffInterval (1/2) 1 1000 15000 = 1000 + ⌊(1/2 : ℚ) * 101⌋ ∧
       0 ≤ ⌊(1/2 : ℚ) * 101⌋ ∧ ⌊(1/2 : ℚ) * 101⌋ ≤ 100)) :=
  ⟨by norm_num, by norm_num, le_refl 1, by norm_num,
    backoff_spec (1/2) 1 1000 15000 (by norm_num) (by norm_num) (le_refl 1) (by norm_num)⟩

/-- C3 (counterexample): as stated the claim is false. After decoding
`retry: 5000` the parsed value sits in the dead global (`globalInterval
= some 5000`) while `RECONNECT_INTERVAL` stays 1000, and the status-200
completion schedules `randomInterval(1000, 100) = 910` at `q = 9/10` —
not the 4510 that a 5000 ms base would give. -/
theorem retry_cex :
    (onRSC 4 200 ("retry: 5000\n\n".data) (9/10) (openES (mkES noOpts)).1).1.globalInterval =
      some 5000 ∧
    (onRSC 4 200 ("retry: 5000\n\n".data) (9/10) (openES (mkES noOpts)).1).1.reconnectInterval =
      1000 ∧
    (onRSC 4 200 ("retry: 5000\n\n".data) (9/10) (openES (mkES noOpts)).1).2.filter isScheduleAct =
      [Act.schedule (randomInterval (9/10) 1000 100)] ∧
    randomInterval (9/10) 1000 100 = 910 ∧
    randomInterval (9/10) 5000 100 = 4510 ∧
    (910 : ℤ) ≠ 4510 := by
  refine ⟨rfl, rfl, rfl, ?_, ?_, by norm_num⟩ <;> norm_num [randomInterval]

/-- C3 (amended): a `retry: N` line parses the integer into a variable
that is never read back — the status-200 (peer close) completion always
reschedules at `randomInterval(RECONNECT_INTERVAL, 100)` and the
backoff bounds are unchanged by decoding. -/
theorem retry_amended (s : ES) (q : ℚ) (body : List Char) :
    Act.schedule (randomInterval q s.reconnectInterval 100) ∈ (onRSC 4 200 body q s).2 ∧
    (onRSC 4 200 body q s).1.reconnectInterval = s.reconnectInterval ∧
    (onRSC 4 200 body q s).1.minInterval = s.minInterval ∧
    (onRSC 4 200 body q s).1.maxInterval = s.maxInterval ∧
    (decodeCall ("retry: 5000\n".data) [] none none).1.interval = some 5000 := by
  refine ⟨?_, ?_, ?_, ?_, rfl⟩ <;>
    by_cases hr : s.readyState = some 0 <;>
      simp [onRSC, hr, setReadyState, pollAgain, CONNECTING, OPEN, CLOSED]

end SseEvents

namespace SseEvents


/-- C2 (code bug evidence): constructing with `retryOnNetworkError:
false` still yields `RETRY_ON_NETWORK_ERROR = true` (the source computes
`retryOnNetworkError || true`), so a status-0 failure increments the
attempt counter to 1, schedules a retry, stays in CONNECTING and emits
no `close` event — contradicting the claim that no retry is scheduled
and the client closes with the error flag. -/
theorem network_retry_flag_stuck :
    (mkES noRetryCfg).retryNetwork = true ∧
    (onerror 0 0 (openES (mkES noRetryCfg)).1).1.attempts = 1 ∧
    (onerror 0 0 (openES (mkES noRetryCfg)).1).1.readyState = some CONNECTING ∧
    (onerror 0 0 (openES (mkES noRetryCfg)).1).1.pollTimer = true ∧
    countSchedule (onerror 0 0 (openES (mkES noRetryCfg)).1).2 = 1 ∧
    (onerror 0 0 (openES (mkES noRetryCfg)).1).2.filter isCloseAct = [] :=
  ⟨rfl, rfl, rfl, rfl, rfl, rfl⟩






/-- C4: with `retryOnNetworkError = true` and `maxAttempts = 3`, three
consecutive status-0 failures each schedule exactly one retry with the
attempt counter reaching 3, and the fourth failure schedules none,
moves to CLOSED with the timer cleared, and publishes one `close` event
with the error flag set. -/
theorem max_attempts_burst :
    countSchedule burstFail1.2 = 1 ∧ burstFail1.1.attempts = 1 ∧
    countSchedule burstFail2.2 = 1 ∧ burstFail2.1.attempts = 2 ∧
    countSchedule burstFail3.2 = 1 ∧ burstFail3.1.attempts = 3 ∧
    countSchedule burstFail4.2 = 0 ∧
    burstFail4.1.readyState = some CLOSED ∧
    burstFail4.1.pollTimer = false ∧
    burstFail4.2.filter isCloseAct = [Act.emit (Ev.closeEv true)] :=
  ⟨rfl, rfl, rfl, rfl, rfl, rfl, rfl, rfl, rfl, rfl⟩

/-- C6: the body `data: hello\n\n` decodes to exactly one frame of type
`message` whose payload stays the raw string `hello`, and
`event: ping` + a JSON object data line decodes to one frame of type
`ping` whose payload is the JSON-decoded object. -/
theorem decode_scenarios :
    decodeFrames ("data: hello\n\n") =
      [("message".data, MsgData.raw ("hello".data), none)] ∧
    decodeFrames ("event: ping\ndata: \x7b\"n\":1\x7d\n\n") =
      [("ping".data, MsgData.json (Json.obj [("n".data, Json.num 1)]), none)] :=
  ⟨rfl, rfl⟩

/-- Any trimmed line that merely starts with `data` is consumed by the
data branch, with the prefix-matching regex stripped. -/
theorem lineStep_data_anyLine (l : List Char) (st : DecSt)
    (h : startsWithC ("data".data) (jsTrim l) = true) :
    lineStep st l =
      ({ st with data := st.data ++ [stripField ("data".data) (jsTrim l)] }, none) := by
  cases hl : jsTrim l with
  | nil => rw [hl] at h; exact absurd h (by decide)
  | cons c cs =>
    rw [hl] at h
    have hc : c = 'd' := by
      rw [show ("data".data) = 'd' :: 'a' :: 't' :: 'a' :: [] from rfl] at h
      simp [startsWithC] at h
      exact h.1.symm
    subst hc
    have he : startsWithC ("event".data) ('d' :: cs) = false := by
      rw [show ("event".data) = 'e' :: 'v' :: 'e' :: 'n' :: 't' :: [] from rfl]
      simp [startsWithC]
    have hr : startsWithC ("retry".data) ('d' :: cs) = false := by
      rw [show ("retry".data) = 'r' :: 'e' :: 't' :: 'r' :: 'y' :: [] from rfl]
      simp [startsWithC]
    simp only [lineStep, hl, he, hr, h, if_true, if_false, Bool.false_eq_true, reduceIte]

/-- C10: line classification matches on leading characters only — any
trimmed line starting with `data` is consumed as a data line with the
regex-stripped remainder (e.g. `database: x` contributes `base: x`),
and lines starting with `event`, `retry` or `id` are treated as those
fields (`eventual: p` sets the event name to `ual: p`, `retry500`
updates the parsed interval to 500, `idempotent` resets the last event
id) rather than being ignored. -/
theorem loose_field_matching :
    (∀ (l : List Char) (st : DecSt), startsWithC ("data".data) (jsTrim l) = true →
      lineStep st l =
        ({ st with data := st.data ++ [stripField ("data".data) (jsTrim l)] }, none)) ∧
    decodeFrames ("database: x\n\n") =
      [("message".data, MsgData.raw ("base: x".data), none)] ∧
    decodeFrames ("eventual: p\ndata: z\n\n") =
      [(("ual: p").data, MsgData.raw ("z".data), none)] ∧
    (decodeCall ("retry500\n".data) [] none none).1.interval = some 500 ∧
    (decodeCall ("id: 7\nidempotent\n".data) [] none none).1.lastEventId = none :=
  ⟨lineStep_data_anyLine, rfl, rfl, rfl, rfl⟩

/-- C10 (witness): the universally quantified part instantiated at the
line `database: x` and the fresh decode state. -/
theorem loose_field_matching_witness :
    startsWithC ("data".data) (jsTrim ("database: x".data)) = true ∧
    lineStep (initSt none none) ("database: x".data) =
      ({ initSt none none with
          data := (initSt none none).data ++
            [stripField ("data".data) (jsTrim ("database: x".data))] }, none) :=
  ⟨by decide, loose_field_matching.1 ("database: x".data) (initSt none none) (by decide)⟩

end SseEvents

namespace SseEvents

/-- C7 (witness): the non-CLOSED part instantiated at the state reached
by `open()` on a fresh client. -/
theorem close_spec_witness :
    ((openES (mkES noOpts)).1.readyState ≠ some CLOSED) ∧
    ((closeES true (openES (mkES noOpts)).1).1.readyState = some CLOSED ∧
     (closeES true (openES (mkES noOpts)).1).1.pollTimer = false ∧
     (closeES true (openES (mkES noOpts)).1).1.attempts = 0 ∧
     ((openES (mkES noOpts)).1.xhr.isSome = true →
       Act.abort ∈ (closeES true (openES (mkES noOpts)).1).2) ∧
     (closeES true (openES (mkES noOpts)).1).2.filter isCloseAct =
       [Act.emit (Ev.closeEv true)]) :=
  ⟨by decide, (close_spec (openES (mkES noOpts)).1 true).1 (by decide)⟩

/-- C8 (witness): the no-op part instantiated at a client with a
pending retry timer. -/
theorem open_spec_witness :
    (xhrIdle { mkES noOpts with pollTimer := true }.xhr = false ∨
      { mkES noOpts with pollTimer := true }.pollTimer = true) ∧
    openES { mkES noOpts with pollTimer := true } =
      ({ mkES noOpts with pollTimer := true }, []) :=
  ⟨Or.inr rfl, (open_spec { mkES noOpts with pollTimer := true }).1 (Or.inr rfl)⟩

/-- C9 (witness): instance of the first-attempt-only theorem at a fresh
client and random outcome 0. -/
theorem onerror_first_only_witness :
    ((onerror 0 0 (mkES noOpts)).2.any isErrorAct) = true ↔ (mkES noOpts).attempts = 0 :=
  onerror_first_only (mkES noOpts) 0

end SseEvents
